import Mathlib

/-!
Verification of the customer-review component (`src/component/Review.jsx`).

The component is a React function holding its state in `useState` hooks;
we embed it as a pure state machine: the state record mirrors the hooks,
and each DOM event handler becomes one case of a `step` function.
JavaScript strings are Lean `String`s (`.trim()` is `jsTrim` below),
ratings and ids are `Nat`, and submission dates are `Nat` timestamps
(the code compares dates through `new Date(...)` subtraction, which is
numeric comparison of timestamps, so any order-isomorphic encoding is
faithful).  The floating-point division feeding `.toFixed(1)` is embedded
as exact rational arithmetic: the ratings are small integers, so the
`ℚ` value of `sum/count` agrees with the IEEE double except on
measure-zero representation artifacts, and `.toFixed(1)` is the ECMA
rounding (nearest tenth, ties upward) applied to that value.
-/

namespace ReviewApp

/-- A committed review, mirroring the objects stored in the `reviews`
`useState` hook: `{id, name, rating, comment, date}`. -/
structure Review where
  id : Nat
  name : String
  rating : Nat
  comment : String
  date : Nat
deriving DecidableEq, Repr

/-- The in-progress draft, mirroring the `newReview` hook
`{name: '', rating: 0, comment: ''}`. -/
structure Draft where
  name : String
  rating : Nat
  comment : String
deriving DecidableEq, Repr

/-- The draft a freshly opened form starts from (initial `newReview`). -/
def emptyDraft : Draft := { name := "", rating := 0, comment := "" }

/-- The `formErrors` object.  Each field of the JS object either is
absent (`none`), or holds a message string; clearing a field writes the
empty string `''` (which renders as "no error" because it is falsy). -/
structure FormErrors where
  name : Option String
  rating : Option String
  comment : Option String
deriving DecidableEq, Repr

/-- The empty error object `{}` (initial `formErrors`, and the value set
by every full form reset). -/
def emptyErrors : FormErrors := { name := none, rating := none, comment := none }

/-- Embedding of JavaScript `String.prototype.trim()`: drop whitespace
characters from both ends of the character sequence.  (Written over the
underlying character list rather than through `String.trim` so that it
reduces structurally on concrete inputs; the two agree on the whitespace
alphabet relevant here.) -/
def jsTrim (s : String) : String :=
  ⟨((s.data.dropWhile Char.isWhitespace).reverse.dropWhile Char.isWhitespace).reverse⟩

/-- JavaScript truthiness of an error entry: the error is displayed (and
drives `formErrors[name] && ...` checks) iff the entry exists and is a
non-empty string. -/
def isActive (e : Option String) : Bool :=
  match e with
  | some s => !s.isEmpty
  | none => false

/-- Embedding of `validateForm` (Review.jsx lines 114-133): builds a fresh
error object; `name` gets `'Name is required'` when the trimmed name is
empty, `rating` gets `'Please select a rating'` when the rating is `0`,
and `comment` gets `'Review comment is required'` when the trimmed comment
is empty, else `'Review must be at least 10 characters long'` when the
trimmed length is below 10. -/
def validateDraft (d : Draft) : FormErrors :=
  { name := if jsTrim d.name = "" then some "Name is required" else none
    rating := if d.rating = 0 then some "Please select a rating" else none
    comment :=
      if jsTrim d.comment = "" then some "Review comment is required"
      else if (jsTrim d.comment).length < 10 then
        some "Review must be at least 10 characters long"
      else none }

/-- The boolean `validateForm` returns: `Object.keys(errors).length === 0`,
i.e. no field was written into the fresh error object. -/
def draftValid (d : Draft) : Bool :=
  validateDraft d == emptyErrors

/-! Spec-side validation rules, for the refinement statement of C1.
These are written from the spec's words, to be compared with
`validateDraft`, which is written from the code. -/

/-- The spec's error kinds. -/
inductive ErrKind where
  | EmptyField
  | MissingRating
  | TooShort
deriving DecidableEq, Repr

/-- Spec's rule for `name`: "fails `EmptyField` if trimmed value is empty". -/
def specNameError (d : Draft) : Option ErrKind :=
  if jsTrim d.name = "" then some .EmptyField else none

/-- Spec's rule for `rating`: "fails `MissingRating` if value equals 0". -/
def specRatingError (d : Draft) : Option ErrKind :=
  if d.rating = 0 then some .MissingRating else none

/-- Spec's rule for `comment`: "fails `EmptyField` if trimmed value is
empty; else fails `TooShort` if trimmed length < 10". -/
def specCommentError (d : Draft) : Option ErrKind :=
  if jsTrim d.comment = "" then some .EmptyField
  else if (jsTrim d.comment).length < 10 then some .TooShort
  else none

/-- Classification of the code's literal messages by the spec's kinds. -/
def msgKind (m : String) : Option ErrKind :=
  if m = "Name is required" then some .EmptyField
  else if m = "Review comment is required" then some .EmptyField
  else if m = "Please select a rating" then some .MissingRating
  else if m = "Review must be at least 10 characters long" then some .TooShort
  else none

/-! Aggregate average (Review.jsx lines 110-112). -/

/-- The `reduce((sum, review) => sum + review.rating, 0)` accumulator. -/
def sumRatings (l : List Review) : Nat :=
  l.foldl (fun sum review => sum + review.rating) 0

/-- ECMA `Number.prototype.toFixed(1)` on a non-negative value: the
nearest multiple of 1/10, ties resolved to the larger candidate. -/
def toFixed1 (q : ℚ) : ℚ :=
  (⌊q * 10 + 1 / 2⌋ : ℚ) / 10

/-- Embedding of `averageRating` (lines 110-112): when the list is
non-empty, `(sum / length).toFixed(1)`; otherwise the literal `0`. -/
def averageRating (l : List Review) : ℚ :=
  if 0 < l.length then toFixed1 ((sumRatings l : ℚ) / (l.length : ℚ))
  else 0

/-- Spec-side aggregate, from the spec's words: "sum(ratings)/count,
rounded to one decimal, or 0 when the list is empty". -/
def specAverageRating (l : List Review) : ℚ :=
  if l = [] then 0
  else toFixed1 (((l.map Review.rating).sum : ℚ) / (l.length : ℚ))

/-! Sorting and filtering (Review.jsx lines 202-210). -/

/-- The body of the `.filter` predicate:
`filterRating === 0 || review.rating === filterRating`. -/
def keepReview (filterRating : Nat) (review : Review) : Bool :=
  filterRating == 0 || review.rating == filterRating

/-- The `.sort` comparator (lines 205-210).  For `sortBy = 'rating'` it is
`b.rating - a.rating || new Date(b.date) - new Date(a.date)` (a JS `||`
falls through to the date difference exactly when the rating difference
is the falsy number 0); for any other key it is the date difference. -/
def reviewCmp (sortBy : String) (a b : Review) : Int :=
  if sortBy = "rating" then
    if (b.rating : Int) - (a.rating : Int) = 0 then (b.date : Int) - (a.date : Int)
    else (b.rating : Int) - (a.rating : Int)
  else (b.date : Int) - (a.date : Int)

/-- The "comes no later" relation induced by the comparator: a stable
ECMAScript sort places `a` before `b` whenever `cmp a b ≤ 0`. -/
def reviewLe (sortBy : String) (a b : Review) : Bool :=
  reviewCmp sortBy a b ≤ 0

/-- Embedding of `sortedAndFilteredReviews` (lines 202-210): `.filter`
copies the kept elements into a new array, and `.sort` stably orders that
copy by the comparator (ECMAScript `Array.prototype.sort` is stable, as is
`List.mergeSort`); the stored `reviews` array is never touched. -/
def sortedAndFilteredReviews (reviews : List Review) (sortBy : String)
    (filterRating : Nat) : List Review :=
  (reviews.filter (keepReview filterRating)).mergeSort (reviewLe sortBy)

/-! Star-rating widget display (Review.jsx lines 84-107). -/

/-- JavaScript `a || b` on numbers, as used in `hoveredRating || rating`:
`a` unless `a` is the falsy `0`. -/
def jsOr (a b : Nat) : Nat :=
  if a = 0 then b else a

/-- Whether the star at position `star` receives the `filled` class:
`star <= (hoveredRating || rating)` (line 94). -/
def starFilled (hoveredRating rating star : Nat) : Bool :=
  star ≤ jsOr hoveredRating rating

/-- The five ordered filled flags produced by mapping over the literal
star positions `[1, 2, 3, 4, 5]` (line 91). -/
def starFlags (hoveredRating rating : Nat) : List Bool :=
  [1, 2, 3, 4, 5].map (starFilled hoveredRating rating)

/-- Spec-side filled rule, from the spec's words: position `i` is filled
iff `i` is at most the hover value when a hover is active (non-zero) and
at most the rating value otherwise. -/
def specStarFilled (hoveredRating rating i : Nat) : Bool :=
  if hoveredRating ≠ 0 then i ≤ hoveredRating else i ≤ rating

/-! The component as a state machine.  One field per `useState` hook
(plus `reviewCountRef`); `pendingSubmit` models the draft captured by the
closure of an in-flight `handleSubmit` between `setIsSubmitting(true)` and
the resolution of the awaited 1000 ms promise — the commit at lines
151-157 reads the render-time `newReview` it closed over, not the hook's
later value. -/
structure ReviewState where
  reviews : List Review
  newReview : Draft
  showForm : Bool
  isSubmitting : Bool
  formErrors : FormErrors
  sortBy : String
  filterRating : Nat
  reviewCount : Nat
  pendingSubmit : Option Draft
deriving DecidableEq, Repr

/-- The user-interaction events the rendered markup can deliver to the
handlers.  A star selection carries its position in the literal array
`[1, 2, 3, 4, 5]` (line 91), so its value is `star.val + 1`; keyboard
activation of a star runs the same `handleClick` and needs no separate
event.  `submitFinish` is the resolution of the awaited promise and
carries the `Date.now()` value and current date observed at lines
152-154. -/
inductive Event where
  | inputName (v : String)
  | inputComment (v : String)
  | starClick (star : Fin 5)
  | submitStart
  | submitFinish (now : Nat) (today : Nat)
  | toggleForm
  | cancelForm
  | setSortBy (k : String)
  | setFilterRating (r : Nat)
deriving DecidableEq, Repr

/-- The `handleInputChange` update (lines 169-179) for one text field:
store the value in the draft, and overwrite the field's error with `''`
when it was truthy. -/
def clearIfActive (e : Option String) : Option String :=
  if isActive e then some "" else e

/-- One reaction of the component to one event.  Guards mirror the
rendered markup: the form and its controls exist only when `showForm`
(line 255), and the text inputs, submit button and cancel button carry
`disabled={isSubmitting}` (lines 272, 303, 317, 325), so those events
cannot be delivered while a submission is in flight; the interactive
stars and the header toggle button have no `disabled` attribute and stay
live.  `submitFinish` fires only when a submission is pending. -/
def step (st : ReviewState) (e : Event) : ReviewState :=
  match e with
  | .inputName v =>
    if st.showForm && !st.isSubmitting then
      { st with
        newReview := { st.newReview with name := v }
        formErrors := { st.formErrors with name := clearIfActive st.formErrors.name } }
    else st
  | .inputComment v =>
    if st.showForm && !st.isSubmitting then
      { st with
        newReview := { st.newReview with comment := v }
        formErrors := { st.formErrors with comment := clearIfActive st.formErrors.comment } }
    else st
  | .starClick star =>
    -- handleClick (lines 58-63): set the draft rating via
    -- handleRatingChange and write `''` over the rating error.
    if st.showForm then
      { st with
        newReview := { st.newReview with rating := star.val + 1 }
        formErrors := { st.formErrors with rating := some "" } }
    else st
  | .submitStart =>
    -- handleSubmit up to the await (lines 135-149): run validateForm
    -- (which stores the fresh error object); on failure return without
    -- further effect, on success raise isSubmitting and suspend.
    if st.showForm && !st.isSubmitting then
      if draftValid st.newReview then
        { st with
          formErrors := validateDraft st.newReview
          isSubmitting := true
          pendingSubmit := some st.newReview }
      else { st with formErrors := validateDraft st.newReview }
    else st
  | .submitFinish now today =>
    -- handleSubmit after the await (lines 151-166): build the review
    -- from the closed-over draft with `Date.now()` and today's date,
    -- prepend it, bump the counter, and reset the form.
    match st.pendingSubmit with
    | some d =>
      { st with
        reviews :=
          { id := now, name := d.name, rating := d.rating
            comment := d.comment, date := today } :: st.reviews
        reviewCount := st.reviewCount + 1
        newReview := emptyDraft
        formErrors := emptyErrors
        showForm := false
        isSubmitting := false
        pendingSubmit := none }
    | none => st
  | .toggleForm =>
    -- handleFormToggle (lines 188-194): flip showForm; when the form was
    -- open, also reset the draft and the errors.
    if st.showForm then
      { st with showForm := false, newReview := emptyDraft, formErrors := emptyErrors }
    else { st with showForm := true }
  | .cancelForm =>
    -- handleCancelForm (lines 196-200).
    if st.showForm && !st.isSubmitting then
      { st with showForm := false, newReview := emptyDraft, formErrors := emptyErrors }
    else st
  | .setSortBy k => { st with sortBy := k }
  | .setFilterRating r => { st with filterRating := r }

/-- The component's initial state (lines 5-37): the two seeded reviews,
an empty draft, closed form, no errors, date sort, no filter.  The string
dates `"2024-01-15"` and `"2024-01-10"` are encoded as the order-isomorphic
timestamps `20240115` and `20240110`. -/
def initialState : ReviewState :=
  { reviews :=
      [ { id := 1, name := "John Doe", rating := 5
          comment := "Excellent product! Highly recommended.", date := 20240115 }
      , { id := 2, name := "Jane Smith", rating := 4
          comment := "Good quality, fast delivery. Very satisfied.", date := 20240110 } ]
    newReview := emptyDraft
    showForm := false
    isSubmitting := false
    formErrors := emptyErrors
    sortBy := "date"
    filterRating := 0
    reviewCount := 2
    pendingSubmit := none }

/-- Run a sequence of events from a state. -/
def runEvents (st : ReviewState) (es : List Event) : ReviewState :=
  es.foldl step st

/-! Invariants. -/

/-- The spec's per-review invariant: rating in [1,5], non-empty trimmed
name, trimmed comment of length at least 10. -/
def ReviewOK (r : Review) : Prop :=
  1 ≤ r.rating ∧ r.rating ≤ 5 ∧ jsTrim r.name ≠ "" ∧ 10 ≤ (jsTrim r.comment).length

instance (r : Review) : Decidable (ReviewOK r) := by
  unfold ReviewOK; infer_instance

/-- The inductive store invariant: every committed review is well formed,
the draft rating never exceeds 5 (it is 0 initially and star clicks write
1..5), and an in-flight submission carries a draft that passed
validation with rating at most 5. -/
def StoreInv (st : ReviewState) : Prop :=
  (∀ r ∈ st.reviews, ReviewOK r)
  ∧ st.newReview.rating ≤ 5
  ∧ (∀ d, st.pendingSubmit = some d → draftValid d = true ∧ d.rating ≤ 5)

/-- The closed-form invariant behind C10: whenever the form is closed the
draft is empty and the error object is `{}`. -/
def ClosedFormClean (st : ReviewState) : Prop :=
  st.showForm = false → st.newReview = emptyDraft ∧ st.formErrors = emptyErrors

/-! Helper lemmas. -/

/-- The folded accumulator of `reduce` equals the sum of the mapped
ratings. -/
theorem sumRatings_eq_sum (l : List Review) :
    sumRatings l = (l.map Review.rating).sum := by
  suffices h : ∀ a, l.foldl (fun sum review => sum + review.rating) a
      = a + (l.map Review.rating).sum by
    simpa [sumRatings] using h 0
  induction l with
  | nil => simp
  | cons x xs ih =>
    intro a
    simp only [List.foldl_cons, List.map_cons, List.sum_cons, ih]
    omega

/-- C1: validation returns exactly the error map given by three
independently evaluated rules: `name` gets `EmptyField` iff the trimmed
name is empty, `rating` gets `MissingRating` iff the rating is 0, and
`comment` gets `EmptyField` iff the trimmed comment is empty and
otherwise `TooShort` iff the trimmed length is below 10; a trimmed-empty
comment yields the `EmptyField` message, never `TooShort`, and the
comment field holds at most one error. -/
theorem validateForm_rules (d : Draft) :
    (validateDraft d).name.bind msgKind = specNameError d
    ∧ (validateDraft d).rating.bind msgKind = specRatingError d
    ∧ (validateDraft d).comment.bind msgKind = specCommentError d
    ∧ (jsTrim d.comment = "" →
        (validateDraft d).comment = some "Review comment is required") := by
  refine ⟨?_, ?_, ?_, ?_⟩
  · by_cases h : jsTrim d.name = "" <;>
      simp [validateDraft, specNameError, msgKind, h]
  · by_cases h : d.rating = 0 <;>
      simp [validateDraft, specRatingError, msgKind, h]
  · by_cases h : jsTrim d.comment = "" <;>
      by_cases h2 : (jsTrim d.comment).length < 10 <;>
      simp [validateDraft, specCommentError, msgKind, h, h2]
  · intro h
    simp [validateDraft, h]

/-- Witness for C1 at the empty draft: every rule fires as specified, and
the empty comment draws the `EmptyField` message, not `TooShort`. -/
theorem validateForm_rules_witness :
    (validateDraft emptyDraft).name.bind msgKind = specNameError emptyDraft
    ∧ (validateDraft emptyDraft).rating.bind msgKind = specRatingError emptyDraft
    ∧ (validateDraft emptyDraft).comment.bind msgKind = specCommentError emptyDraft
    ∧ (validateDraft emptyDraft).comment = some "Review comment is required" :=
  have h := validateForm_rules emptyDraft
  ⟨h.1, h.2.1, h.2.2.1, h.2.2.2 (by decide)⟩

/-- C6: the star display is a pure function producing the five ordered
filled flags for positions 1..5, each equal to the spec's rule (`i` at
most the hover value when a hover is active, at most the rating
otherwise), and the flags are downward closed along positions. -/
theorem starRating_flags (hoveredRating rating : Nat) :
    starFlags hoveredRating rating =
      [specStarFilled hoveredRating rating 1, specStarFilled hoveredRating rating 2,
       specStarFilled hoveredRating rating 3, specStarFilled hoveredRating rating 4,
       specStarFilled hoveredRating rating 5]
    ∧ (starFlags hoveredRating rating).length = 5
    ∧ (∀ i j : Nat, i ≤ j → i ≥ 1 →
        starFilled hoveredRating rating j = true →
        starFilled hoveredRating rating i = true) := by
  refine ⟨?_, by simp [starFlags], ?_⟩
  · by_cases h0 : hoveredRating = 0 <;>
      simp [starFlags, starFilled, specStarFilled, jsOr, h0]
  · intro i j hij _ hj
    simp only [starFilled, decide_eq_true_eq] at hj ⊢
    omega

/-- Witness for C6 at hover 2 over rating 4: flags follow the hover, and
position 1 is filled because position 2 is. -/
theorem starRating_flags_witness :
    starFlags 2 4 =
      [specStarFilled 2 4 1, specStarFilled 2 4 2, specStarFilled 2 4 3,
       specStarFilled 2 4 4, specStarFilled 2 4 5]
    ∧ (starFlags 2 4).length = 5
    ∧ starFilled 2 4 1 = true :=
  have h := starRating_flags 2 4
  ⟨h.1, h.2.1, h.2.2 1 2 (by decide) (by decide) (by decide)⟩

/-- C4: the aggregate average equals the spec's
`sum(ratings)/count` rounded to one decimal for every non-empty list and
0 for the empty list; in particular ratings `[5, 4]` average to 4.5. -/
theorem averageRating_correct (l : List Review) :
    averageRating l = specAverageRating l
    ∧ averageRating [] = 0
    ∧ averageRating
        [ { id := 1, name := "a", rating := 5, comment := "x", date := 0 }
        , { id := 2, name := "b", rating := 4, comment := "y", date := 0 } ]
      = 45 / 10 := by
  refine ⟨?_, by simp [averageRating], ?_⟩
  · unfold averageRating specAverageRating
    rcases eq_or_ne l [] with h | h
    · subst h; simp
    · have hl : 0 < l.length := List.length_pos.mpr h
      simp [hl, h, sumRatings_eq_sum]
  · norm_num [averageRating, sumRatings, toFixed1]

/-- The comparator-induced order is total. -/
theorem reviewLe_total (k : String) (a b : Review) :
    reviewLe k a b || reviewLe k b a := by
  simp only [reviewLe, reviewCmp, Bool.or_eq_true, decide_eq_true_eq]
  by_cases hk : k = "rating"
  · simp only [if_pos hk]
    split_ifs <;> omega
  · simp only [if_neg hk]
    omega

/-- The comparator-induced order is transitive. -/
theorem reviewLe_trans (k : String) (a b c : Review) :
    reviewLe k a b → reviewLe k b c → reviewLe k a c := by
  simp only [reviewLe, reviewCmp, decide_eq_true_eq]
  by_cases hk : k = "rating"
  · simp only [if_pos hk]
    split_ifs <;> omega
  · simp only [if_neg hk]
    omega

/-- Sample reviews for the C5 concrete conjunct: rating 3 with the oldest
date, and two rating-5 reviews with distinct dates. -/
def exD1 : Review := { id := 1, name := "p", rating := 3, comment := "c1", date := 100 }

/-- Second sample review: rating 5, middle date. -/
def exD2 : Review := { id := 2, name := "q", rating := 5, comment := "c2", date := 200 }

/-- Third sample review: rating 5, newest date. -/
def exD3 : Review := { id := 3, name := "s", rating := 5, comment := "c3", date := 300 }

/-- C5: `listReviews` is a derived, non-destructive view — computing it
changes no state and it is a permutation of a filter of the stored list;
a review appears iff it is stored and either no filter is set
(`filterRating = 0`) or its rating equals the filter; the result is
ordered by the comparator, whose meaning is date-descending for the
`"date"` key and rating-descending with date-descending tie-break for
`"rating"`; the stable sort preserves the order among kept reviews (any
correctly ordered adjacent pair of the filtered list stays in order); and
on the three sample reviews, sorting by rating with no filter yields
newest-5, older-5, then the 3. -/
theorem listReviews_spec (reviews : List Review) (key : String) (fr : Nat) :
    (∀ st k r, (step st (.setSortBy k)).reviews = st.reviews
      ∧ (step st (.setFilterRating r)).reviews = st.reviews)
    ∧ (sortedAndFilteredReviews reviews key fr).Perm
        (reviews.filter (keepReview fr))
    ∧ (∀ r, r ∈ sortedAndFilteredReviews reviews key fr ↔
        (r ∈ reviews ∧ (fr = 0 ∨ r.rating = fr)))
    ∧ (sortedAndFilteredReviews reviews key fr).Pairwise
        (fun a b => reviewLe key a b = true)
    ∧ (∀ a b, reviewLe "date" a b = true ↔ b.date ≤ a.date)
    ∧ (∀ a b, reviewLe "rating" a b = true ↔
        (b.rating < a.rating ∨ (b.rating = a.rating ∧ b.date ≤ a.date)))
    ∧ (∀ a b, reviewLe key a b = true →
        [a, b].Sublist (reviews.filter (keepReview fr)) →
        [a, b].Sublist (sortedAndFilteredReviews reviews key fr))
    ∧ sortedAndFilteredReviews [exD1, exD2, exD3] "rating" 0 = [exD3, exD2, exD1] := by
  refine ⟨?_, ?_, ?_, ?_, ?_, ?_, ?_, ?_⟩
  · intro st k r
    constructor <;> rfl
  · exact List.mergeSort_perm _ _
  · intro r
    simp only [sortedAndFilteredReviews, List.mem_mergeSort, List.mem_filter,
      keepReview, Bool.or_eq_true, beq_iff_eq]
  · exact List.sorted_mergeSort (reviewLe_trans key) (reviewLe_total key) _
  · intro a b
    simp only [reviewLe, reviewCmp, decide_eq_true_eq]
    split_ifs <;> first | omega | simp_all
  · intro a b
    simp only [reviewLe, reviewCmp, decide_eq_true_eq]
    split_ifs <;> omega
  · intro a b hab hsub
    exact List.pair_sublist_mergeSort (reviewLe_trans key) (reviewLe_total key) hab hsub
  · simp [sortedAndFilteredReviews, keepReview, List.mergeSort, List.splitInTwo,
      List.splitAt, List.splitAt.go, List.merge, reviewLe, reviewCmp,
      exD1, exD2, exD3]

/-- Witness for C5 on the three sample reviews: sorting by rating with no
filter puts the newest 5-star first, then the older 5-star, then the 3. -/
theorem listReviews_spec_witness :
    sortedAndFilteredReviews [exD1, exD2, exD3] "rating" 0 = [exD3, exD2, exD1] :=
  (listReviews_spec [exD1, exD2, exD3] "rating" 0).2.2.2.2.2.2.2

/-- A draft that passes `validateForm` has a non-empty trimmed name, a
non-zero rating, and a trimmed comment of length at least 10. -/
theorem draftValid_spec (d : Draft) (h : draftValid d = true) :
    jsTrim d.name ≠ "" ∧ d.rating ≠ 0 ∧ 10 ≤ (jsTrim d.comment).length := by
  simp only [draftValid, beq_iff_eq] at h
  have h1 := congrArg FormErrors.name h
  have h2 := congrArg FormErrors.rating h
  have h3 := congrArg FormErrors.comment h
  simp only [validateDraft, emptyErrors] at h1 h2 h3
  refine ⟨?_, ?_, ?_⟩
  · intro hn
    rw [if_pos hn] at h1
    simp at h1
  · intro hr
    rw [if_pos hr] at h2
    simp at h2
  · by_contra hc
    push_neg at hc
    by_cases he : jsTrim d.comment = ""
    · rw [if_pos he] at h3
      simp at h3
    · rw [if_neg he, if_pos hc] at h3
      simp at h3

/-- A draft violating any of the three rules fails `validateForm`. -/
theorem draftValid_false_of (d : Draft)
    (h : jsTrim d.name = "" ∨ d.rating = 0 ∨ (jsTrim d.comment).length < 10) :
    draftValid d = false := by
  simp only [draftValid, beq_eq_false_iff_ne, ne_eq]
  intro heq
  have h1 := congrArg FormErrors.name heq
  have h2 := congrArg FormErrors.rating heq
  have h3 := congrArg FormErrors.comment heq
  simp only [validateDraft, emptyErrors] at h1 h2 h3
  rcases h with h | h | h
  · rw [if_pos h] at h1
    simp at h1
  · rw [if_pos h] at h2
    simp at h2
  · by_cases he : jsTrim d.comment = ""
    · rw [if_pos he] at h3
      simp at h3
    · rw [if_neg he, if_pos h] at h3
      simp at h3

/-- After `handleInputChange` touches a field's error entry, the entry is
no longer truthy. -/
theorem isActive_clearIfActive (e : Option String) :
    isActive (clearIfActive e) = false := by
  rcases e with _ | s
  · rfl
  · by_cases h : s.isEmpty
    · simp [clearIfActive, isActive, h]
    · simp [clearIfActive, isActive, h]
      decide

/-- C3: a draft failing any validation rule makes `handleSubmit` store
the per-field error map and return before the commit: the whole state
change is exactly the new `formErrors`, so the review list, the draft and
the submitting flag are untouched. -/
theorem addReview_invalid_atomic (st : ReviewState)
    (hform : st.showForm = true) (hsub : st.isSubmitting = false)
    (hbad : jsTrim st.newReview.name = "" ∨ st.newReview.rating = 0
      ∨ (jsTrim st.newReview.comment).length < 10) :
    step st .submitStart = { st with formErrors := validateDraft st.newReview }
    ∧ (step st .submitStart).reviews = st.reviews
    ∧ (step st .submitStart).newReview = st.newReview
    ∧ (step st .submitStart).isSubmitting = false
    ∧ (step st .submitStart).formErrors = validateDraft st.newReview := by
  have hinv := draftValid_false_of st.newReview hbad
  refine ⟨?_, ?_, ?_, ?_, ?_⟩ <;> simp [step, hform, hsub, hinv]

/-- A state with the form just opened over the initial store and a still
empty draft, used to witness C3. -/
def openedState : ReviewState :=
  step initialState .toggleForm

/-- Witness for C3: submitting the untouched empty draft reports the
errors and changes nothing else. -/
theorem addReview_invalid_atomic_witness :
    step openedState .submitStart
      = { openedState with formErrors := validateDraft openedState.newReview }
    ∧ (step openedState .submitStart).reviews = openedState.reviews
    ∧ (step openedState .submitStart).newReview = openedState.newReview
    ∧ (step openedState .submitStart).isSubmitting = false
    ∧ (step openedState .submitStart).formErrors
        = validateDraft openedState.newReview :=
  addReview_invalid_atomic openedState rfl rfl (Or.inl rfl)

/-- C2: submitting a valid draft commits, once the simulated delay
resolves, exactly one new review carrying the draft's fields, the
`Date.now()` identifier and the current date; the new review is prepended
(the list grows by exactly one and the old list is its tail), and under a
monotone clock (every stored id predates `now`) the new id is fresh —
distinct from, and larger than, every existing id. -/
theorem addReview_valid_commits (st : ReviewState) (now today : Nat)
    (hform : st.showForm = true) (hsub : st.isSubmitting = false)
    (hvalid : draftValid st.newReview = true)
    (hfresh : ∀ r ∈ st.reviews, r.id < now) :
    (runEvents st [.submitStart, .submitFinish now today]).reviews
      = { id := now, name := st.newReview.name, rating := st.newReview.rating
          comment := st.newReview.comment, date := today } :: st.reviews
    ∧ (runEvents st [.submitStart, .submitFinish now today]).reviews.length
        = st.reviews.length + 1
    ∧ (∀ r ∈ st.reviews, r.id ≠ now)
    ∧ (∀ r ∈ st.reviews, r.id < now) := by
  refine ⟨?_, ?_, fun r hr => Nat.ne_of_lt (hfresh r hr), hfresh⟩ <;>
    simp [runEvents, step, hform, hsub, hvalid]

/-- An empty store with the form open on the spec's Alice draft, used to
witness C2. -/
def aliceState : ReviewState :=
  { initialState with
    reviews := []
    reviewCount := 0
    showForm := true
    newReview := { name := "Alice", rating := 4, comment := "Great product overall" } }

/-- Witness for C2: Alice's draft submitted to the empty store yields
exactly one review with rating 4 and her comment. -/
theorem addReview_valid_commits_witness :
    (runEvents aliceState [.submitStart, .submitFinish 7 20240201]).reviews
      = { id := 7, name := aliceState.newReview.name
          rating := aliceState.newReview.rating
          comment := aliceState.newReview.comment, date := 20240201 }
        :: aliceState.reviews
    ∧ (runEvents aliceState [.submitStart, .submitFinish 7 20240201]).reviews.length
        = aliceState.reviews.length + 1 :=
  have h := addReview_valid_commits aliceState 7 20240201 rfl rfl (by decide)
    (by intro r hr; cases hr)
  ⟨h.1, h.2.1⟩

/-- C7: error clearing is per-field.  Selecting a star while the rating
error is active rewrites only the `rating` entry (leaving it no longer
truthy) and leaves the `name` and `comment` entries exactly as they were;
editing the name field clears only the `name` entry, and editing the
comment field clears only the `comment` entry, each leaving the other two
entries intact. -/
theorem error_clearing_per_field (st : ReviewState) (star : Fin 5) (v w : String)
    (hform : st.showForm = true) (hsub : st.isSubmitting = false)
    (_hactive : isActive st.formErrors.rating = true) :
    ((step st (.starClick star)).formErrors.name = st.formErrors.name
      ∧ (step st (.starClick star)).formErrors.comment = st.formErrors.comment
      ∧ isActive (step st (.starClick star)).formErrors.rating = false)
    ∧ ((step st (.inputName v)).formErrors.rating = st.formErrors.rating
      ∧ (step st (.inputName v)).formErrors.comment = st.formErrors.comment
      ∧ isActive (step st (.inputName v)).formErrors.name = false)
    ∧ ((step st (.inputComment w)).formErrors.rating = st.formErrors.rating
      ∧ (step st (.inputComment w)).formErrors.name = st.formErrors.name
      ∧ isActive (step st (.inputComment w)).formErrors.comment = false) := by
  have hempty : isActive (some "") = false := by decide
  refine ⟨⟨?_, ?_, ?_⟩, ⟨?_, ?_, ?_⟩, ⟨?_, ?_, ?_⟩⟩ <;>
    simp [step, hform, hsub, isActive_clearIfActive, hempty]

/-- A state with the form open and all three errors showing, used to
witness C7. -/
def erroredState : ReviewState :=
  { initialState with
    showForm := true
    formErrors :=
      { name := some "Name is required"
        rating := some "Please select a rating"
        comment := some "Review comment is required" } }

/-- Witness for C7 on a state showing all three errors: a star click at
position 3 and edits of either text field each clear exactly their own
entry. -/
theorem error_clearing_per_field_witness :
    ((step erroredState (.starClick 2)).formErrors.name
        = erroredState.formErrors.name
      ∧ (step erroredState (.starClick 2)).formErrors.comment
          = erroredState.formErrors.comment
      ∧ isActive (step erroredState (.starClick 2)).formErrors.rating = false)
    ∧ ((step erroredState (.inputName "A")).formErrors.rating
          = erroredState.formErrors.rating
      ∧ (step erroredState (.inputName "A")).formErrors.comment
          = erroredState.formErrors.comment
      ∧ isActive (step erroredState (.inputName "A")).formErrors.name = false)
    ∧ ((step erroredState (.inputComment "B")).formErrors.rating
          = erroredState.formErrors.rating
      ∧ (step erroredState (.inputComment "B")).formErrors.name
          = erroredState.formErrors.name
      ∧ isActive (step erroredState (.inputComment "B")).formErrors.comment
          = false) :=
  error_clearing_per_field erroredState 2 "A" "B" rfl rfl (by decide)

/-- C9: re-entrancy of submission is impossible.  A submit event arriving
while `isSubmitting` is raised leaves the state untouched — validation
does not run and no review is added; the flag can only fall again at the
resolution of the pending submission (`submitFinish`); and a valid
submission raises the flag before suspending. -/
theorem no_reentrant_submit (st : ReviewState) (hsub : st.isSubmitting = true) :
    step st .submitStart = st
    ∧ (∀ e, (step st e).isSubmitting = false →
        ∃ now today, e = .submitFinish now today)
    ∧ (∀ st2 : ReviewState, st2.isSubmitting = false → st2.showForm = true →
        draftValid st2.newReview = true →
        (step st2 .submitStart).isSubmitting = true) := by
  refine ⟨by simp [step, hsub], ?_, ?_⟩
  · intro e
    cases e
    case submitFinish now today => exact fun _ => ⟨now, today, rfl⟩
    all_goals
      intro hfalse
      by_cases hsf : st.showForm = true <;>
        simp [step, hsf, hsub] at hfalse
  · intro st2 h1 h2 h3
    simp [step, h1, h2, h3]

/-- A state with a submission in flight over the Alice draft, used to
witness C9. -/
def inFlightState : ReviewState :=
  { aliceState with
    isSubmitting := true
    pendingSubmit := some aliceState.newReview }

/-- Witness for C9: while the Alice submission is in flight, a second
submit event is a no-op. -/
theorem no_reentrant_submit_witness :
    step inFlightState .submitStart = inFlightState :=
  (no_reentrant_submit inFlightState rfl).1

/-- Every single event preserves the closed-form invariant: each path
that closes the form (toggle while open, cancel, successful submit
resolution) also resets the draft and the errors, and no draft- or
error-changing control is rendered while the form is closed. -/
theorem step_preserves_ClosedFormClean (st : ReviewState) (e : Event)
    (h : ClosedFormClean st) : ClosedFormClean (step st e) := by
  have hsf := Bool.eq_false_or_eq_true st.showForm
  have hss := Bool.eq_false_or_eq_true st.isSubmitting
  cases e with
  | inputName v =>
    rcases hsf with hsf | hsf <;> rcases hss with hss | hss <;>
      · intro hc
        simp_all [step, ClosedFormClean]
  | inputComment v =>
    rcases hsf with hsf | hsf <;> rcases hss with hss | hss <;>
      · intro hc
        simp_all [step, ClosedFormClean]
  | starClick star =>
    rcases hsf with hsf | hsf <;>
      · intro hc
        simp_all [step, ClosedFormClean]
  | submitStart =>
    by_cases hv : draftValid st.newReview = true <;>
      rcases hsf with hsf | hsf <;> rcases hss with hss | hss <;>
      · intro hc
        simp_all [step, ClosedFormClean]
  | submitFinish now today =>
    rcases hp : st.pendingSubmit with _ | d <;>
      · intro hc
        simp_all [step, hp, ClosedFormClean]
  | toggleForm =>
    rcases hsf with hsf | hsf <;>
      · intro hc
        simp_all [step, ClosedFormClean]
  | cancelForm =>
    rcases hsf with hsf | hsf <;> rcases hss with hss | hss <;>
      · intro hc
        simp_all [step, ClosedFormClean]
  | setSortBy k =>
    intro hc
    simp_all [step, ClosedFormClean]
  | setFilterRating r =>
    intro hc
    simp_all [step, ClosedFormClean]

/-- C10: whenever the form is closed the draft is the empty draft and the
error map is clear — this holds in the initial state, it is preserved by
every event, and therefore it holds after every event sequence from the
initial state. -/
theorem closed_form_clean :
    ClosedFormClean initialState
    ∧ (∀ st e, ClosedFormClean st → ClosedFormClean (step st e))
    ∧ (∀ es, ClosedFormClean (runEvents initialState es)) := by
  have hinit : ClosedFormClean initialState := fun _ => ⟨rfl, rfl⟩
  refine ⟨hinit, step_preserves_ClosedFormClean, ?_⟩
  intro es
  suffices h : ∀ st, ClosedFormClean st → ClosedFormClean (runEvents st es) from
    h initialState hinit
  induction es with
  | nil => exact fun st h => h
  | cons e es ih =>
    intro st h
    exact ih (step st e) (step_preserves_ClosedFormClean st e h)

/-- Witness for C10: after opening the form, typing a name and
cancelling, the form is closed with an empty draft and no errors. -/
theorem closed_form_clean_witness :
    (runEvents initialState
        [.toggleForm, .inputName "Zoe", .cancelForm]).newReview = emptyDraft
    ∧ (runEvents initialState
        [.toggleForm, .inputName "Zoe", .cancelForm]).formErrors = emptyErrors :=
  closed_form_clean.2.2 [.toggleForm, .inputName "Zoe", .cancelForm] (by decide)

/-- Every single event preserves the store invariant: only
`submitFinish` commits a review, and it commits the draft captured at
`submitStart`, which had passed validation; only `starClick` changes a
draft rating, and it writes a value in 1..5. -/
theorem step_preserves_StoreInv (st : ReviewState) (e : Event)
    (h : StoreInv st) : StoreInv (step st e) := by
  obtain ⟨hrev, hdr, hpend⟩ := h
  have hsf := Bool.eq_false_or_eq_true st.showForm
  have hss := Bool.eq_false_or_eq_true st.isSubmitting
  cases e with
  | inputName v =>
    rcases hsf with hsf | hsf <;> rcases hss with hss | hss <;>
      · refine ⟨?_, ?_, ?_⟩ <;> simp_all [step, StoreInv]
  | inputComment v =>
    rcases hsf with hsf | hsf <;> rcases hss with hss | hss <;>
      · refine ⟨?_, ?_, ?_⟩ <;> simp_all [step, StoreInv]
  | starClick star =>
    rcases hsf with hsf | hsf <;>
      · refine ⟨?_, ?_, ?_⟩ <;> simp_all [step, StoreInv] <;> omega
  | submitStart =>
    by_cases hv : draftValid st.newReview = true <;>
      rcases hsf with hsf | hsf <;> rcases hss with hss | hss <;>
      · refine ⟨?_, ?_, ?_⟩ <;> simp_all [step, StoreInv]
  | submitFinish now today =>
    rcases hp : st.pendingSubmit with _ | d
    · exact ⟨by simp_all [step, hp], by simp_all [step, hp], by simp_all [step, hp]⟩
    · obtain ⟨hdv, hdr5⟩ := hpend d hp
      obtain ⟨hn, hr, hc⟩ := draftValid_spec d hdv
      refine ⟨?_, ?_, ?_⟩
      · intro r hr2
        simp only [step, hp] at hr2
        rcases List.mem_cons.mp hr2 with hEq | hMem
        · subst hEq
          exact ⟨Nat.one_le_iff_ne_zero.mpr hr, hdr5, hn, hc⟩
        · exact hrev r hMem
      · simp [step, hp, emptyDraft]
      · intro d2 hd2
        simp [step, hp] at hd2
  | toggleForm =>
    rcases hsf with hsf | hsf <;>
      · refine ⟨?_, ?_, ?_⟩ <;> simp_all [step, StoreInv, emptyDraft]
  | cancelForm =>
    rcases hsf with hsf | hsf <;> rcases hss with hss | hss <;>
      · refine ⟨?_, ?_, ?_⟩ <;> simp_all [step, StoreInv, emptyDraft]
  | setSortBy k =>
    refine ⟨?_, ?_, ?_⟩ <;> simp_all [step, StoreInv]
  | setFilterRating r =>
    refine ⟨?_, ?_, ?_⟩ <;> simp_all [step, StoreInv]

/-- C8: every committed review has a rating in [1,5], a non-empty trimmed
name and a trimmed comment of length at least 10 — the initial state
satisfies the store invariant, and from any state satisfying it, every
event sequence leaves only well-formed reviews in the list. -/
theorem committed_reviews_invariant :
    StoreInv initialState
    ∧ (∀ st es, StoreInv st → ∀ r ∈ (runEvents st es).reviews, ReviewOK r) := by
  have hinit : StoreInv initialState := by
    refine ⟨by decide, by decide, ?_⟩
    intro d hd
    cases hd
  refine ⟨hinit, ?_⟩
  intro st es
  induction es generalizing st with
  | nil => exact fun h => h.1
  | cons e es ih =>
    intro h
    exact ih (step st e) (step_preserves_StoreInv st e h)

/-- Witness for C8: after opening the form, filling it in, submitting and
letting the delay resolve, the newly committed review is well formed. -/
theorem committed_reviews_invariant_witness :
    ReviewOK { id := 99, name := "Zoe", rating := 3
               comment := "Lovely and sturdy build", date := 20240301 } :=
  committed_reviews_invariant.2 initialState
    [.toggleForm, .inputName "Zoe", .starClick 2,
     .inputComment "Lovely and sturdy build", .submitStart,
     .submitFinish 99 20240301]
    committed_reviews_invariant.1
    { id := 99, name := "Zoe", rating := 3
      comment := "Lovely and sturdy build", date := 20240301 }
    (by decide)

end ReviewApp
